import Mathlib

/-!
Shallow embedding of `pygs/statmisc.py`.

Numeric values are modelled as exact rationals (`ℚ`).  External numeric
routines provided by numpy/scipy that have no closed rational form —
`np.sqrt`, `scipy.stats.t.cdf`, `scipy.stats.t.ppf`, `np.corrcoef` (the
Pearson coefficient), and the p-value half of `scipy.stats.kendalltau` —
are passed to the embedded functions as explicit function parameters, so
every definition below is executable once those parameters are supplied.
The tau statistic of `scipy.stats.kendalltau` itself is modelled concretely
from its documented tau-b formula, since several claims depend on its
value.  A numpy ndarray is modelled as its shape together with its flat
data; NaN entries (only relevant to `mann_kendall`) are modelled as
`none` in an `Option ℚ` payload.
-/

/-- A numpy ndarray of ordinary (non-NaN) numbers: shape plus flat data. -/
structure Arr where
  shape : List ℕ
  data : List ℚ

/-- A numpy ndarray whose entries may be NaN / masked (`none`). -/
structure ArrN where
  shape : List ℕ
  data : List (Option ℚ)

/-- Python slice `xs[i:j]` for `0 ≤ i ≤ j` (clamped at the ends, as in Python). -/
def pySlice (xs : List ℚ) (i j : ℕ) : List ℚ :=
  (xs.drop i).take (j - i)

/-- Model of `np.mean` / `np.ma.mean` on a plain 1-D array: sum divided by length. -/
def listMean (xs : List ℚ) : ℚ := xs.sum / xs.length

/-- Population variance (`ddof = 0`), the quantity `np.std` / `np.ma.std`
takes the square root of. -/
def listVar (xs : List ℚ) : ℚ := ((xs.map (fun t => (t - listMean xs) ^ 2)).sum) / xs.length

/-- The keyword arguments of `siglev`; `none` models the Python `None` default. -/
structure SiglevArgs where
  x : Option (List ℚ) := none
  y : Option (List ℚ) := none
  xbar : Option ℚ := none
  ybar : Option ℚ := none
  xstd : Option ℚ := none
  ystd : Option ℚ := none
  nx : Option ℤ := none
  ny : Option ℤ := none
  pooled : Bool := false

/-- The x-side of `siglev` (statmisc.py lines 40-51): either `x` is given and
none of `xbar`/`xstd`/`nx` may be, in which case the mean, standard deviation
and count are computed from `x`; or `x` is absent and all three summary values
must be given.  Returns the list of summary statistics computed from raw data
(modelling execution order), then the resolved `xbar`, `sx`, `nx`. -/
def siglevResolveX (sqrt : ℚ → ℚ) (a : SiglevArgs) :
    Except String (List String × ℚ × ℚ × ℤ) :=
  match a.x with
  | some xs =>
      if a.xbar.isSome || a.xstd.isSome || a.nx.isSome then
        Except.error "siglev: both x and xbar/xstd/nx cannot be passed together."
      else
        Except.ok (["xbar", "sx", "nx"], listMean xs, sqrt (listVar xs), (xs.length : ℤ))
  | none =>
      match a.xbar, a.xstd, a.nx with
      | some xb, some xsd, some n => Except.ok ([], xb, xsd, n)
      | _, _, _ => Except.error "siglev: at least x or xbar, xstd, nx should be passed."

/-- The y-side of `siglev` (statmisc.py lines 53-63), symmetric to the x-side. -/
def siglevResolveY (sqrt : ℚ → ℚ) (a : SiglevArgs) :
    Except String (List String × ℚ × ℚ × ℤ) :=
  match a.y with
  | some ys =>
      if a.ybar.isSome || a.ystd.isSome || a.ny.isSome then
        Except.error "siglev: both y and ybar/ystd/ny cannot be passed together."
      else
        Except.ok (["ybar", "sy", "ny"], listMean ys, sqrt (listVar ys), (ys.length : ℤ))
  | none =>
      match a.ybar, a.ystd, a.ny with
      | some yb, some ysd, some n => Except.ok ([], yb, ysd, n)
      | _, _, _ => Except.error "siglev: at least y or ybar,ystd,ny should be passed."

/-- Model of `siglev` (statmisc.py lines 17-75) together with the ordered list of
summary statistics it computed before returning, modelling the execution
order of the Python function: the x-side is validated and resolved first
(computing `xbar`, `sx`, `nx` from raw data when `x` is passed), then the
y-side, then the test statistic.  `sqrt` models `np.sqrt`, `tcdf` models
`scipy.stats.t.cdf`. -/
def siglevRun (sqrt : ℚ → ℚ) (tcdf : ℚ → ℤ → ℚ) (a : SiglevArgs) :
    List String × Except String ℚ :=
  match siglevResolveX sqrt a with
  | Except.error e => ([], Except.error e)
  | Except.ok (tx, xbarv, sx, nxv) =>
      match siglevResolveY sqrt a with
      | Except.error e => (tx, Except.error e)
      | Except.ok (ty, ybarv, sy, nyv) =>
          let dof : ℤ := nxv + nyv - 2
          let denom : ℚ :=
            if a.pooled then
              ((nxv - 1 : ℚ) * sx ^ 2 + (nyv - 1 : ℚ) * sy ^ 2) /
                ((nxv : ℚ) + (nyv : ℚ) - 2) * ((nxv : ℚ) + (nyv : ℚ)) /
                ((nxv : ℚ) * (nyv : ℚ))
            else
              sx ^ 2 / (nxv : ℚ) + sy ^ 2 / (nyv : ℚ)
          let tval : ℚ := |xbarv - ybarv| / sqrt denom
          let clevm : ℚ := tcdf tval dof
          (tx ++ ty ++ ["dof", "denom", "tval", "clevm"],
            Except.ok ((1 - (1 - clevm) * 2) * 100))

/-- The value `siglev` returns (or the error it raises). -/
def siglev (sqrt : ℚ → ℚ) (tcdf : ℚ → ℤ → ℚ) (a : SiglevArgs) : Except String ℚ :=
  (siglevRun sqrt tcdf a).2

/-- Stated from the claim, for comparison with the code: the significance
level is 100 × (1 − 2×(1 − CDF_t(t, dof))) with dof = nx + ny − 2,
t = |xbar − ybar| / sqrt(denom), and denom the pooled or Welch variance term. -/
def siglevSpecFormula (sqrt : ℚ → ℚ) (tcdf : ℚ → ℤ → ℚ)
    (xbar ybar sx sy : ℚ) (nx ny : ℤ) (pooled : Bool) : ℚ :=
  let dof : ℤ := nx + ny - 2
  let denom : ℚ :=
    if pooled then
      ((nx - 1 : ℚ) * sx ^ 2 + (ny - 1 : ℚ) * sy ^ 2) /
        ((nx : ℚ) + (ny : ℚ) - 2) * ((nx : ℚ) + (ny : ℚ)) / ((nx : ℚ) * (ny : ℚ))
    else
      sx ^ 2 / (nx : ℚ) + sy ^ 2 / (ny : ℚ)
  let t : ℚ := |xbar - ybar| / sqrt denom
  100 * (1 - 2 * (1 - tcdf t dof))

/-- Predicate: `x` given together with part of its summary triple (statmisc.py line 41). -/
def xBadBoth (a : SiglevArgs) : Bool :=
  a.x.isSome && (a.xbar.isSome || a.xstd.isSome || a.nx.isSome)

/-- Neither `x` nor its complete summary triple given (statmisc.py line 48). -/
def xBadNone (a : SiglevArgs) : Bool :=
  a.x.isNone && (a.xbar.isNone || a.xstd.isNone || a.nx.isNone)

/-- Predicate: `y` given together with part of its summary triple (statmisc.py line 54). -/
def yBadBoth (a : SiglevArgs) : Bool :=
  a.y.isSome && (a.ybar.isSome || a.ystd.isSome || a.ny.isSome)

/-- Neither `y` nor its complete summary triple given (statmisc.py line 60). -/
def yBadNone (a : SiglevArgs) : Bool :=
  a.y.isNone && (a.ybar.isNone || a.ystd.isNone || a.ny.isNone)

/-- Model of `cnfint` (statmisc.py lines 79-96): `cl` is `clev` when `tail == 1` and
`1 - (1-clev)/2` otherwise; the width is `t.ppf(cl, nx-1) * xstd/sqrt(nx)`.
`sqrt` models `np.sqrt`, `ppf` models `scipy.stats.t.ppf`. -/
def cnfint (sqrt : ℚ → ℚ) (ppf : ℚ → ℤ → ℚ) (xstd : ℚ) (nx : ℤ)
    (clev : ℚ) (tail : ℤ) : ℚ :=
  let cl : ℚ := if tail = 1 then clev else 1 - (1 - clev) / 2
  let sdbar : ℚ := xstd / sqrt (nx : ℚ)
  ppf cl (nx - 1) * sdbar

/-- Model of `np.correlate(a, v, mode = )` with mode `full` on real (rational) data: the full
sliding dot product, of length `len a + len v - 1`, with output index `j`
corresponding to offset `j - (len v - 1)` of `a` against `v`. -/
def npCorrelateFull (a v : List ℚ) : List ℚ :=
  (List.range (a.length + v.length - 1)).map (fun j =>
    ((List.range v.length).map (fun n =>
      if v.length - 1 ≤ n + j ∧ n + j - (v.length - 1) < a.length then
        a.getD (n + j - (v.length - 1)) 0 * v.getD n 0
      else 0)).sum)

/-- Model of `autocorr` (statmisc.py lines 99-123): after 1-D checks, the first vector
is centred and scaled by its standard deviation times its length, the second
is centred and scaled by its standard deviation, and the full-mode correlation
of the two is returned.  `sqrt` models `np.sqrt` (so `sqrt (listVar xs)`
is `np.std`). -/
def autocorr (sqrt : ℚ → ℚ) (a v : Arr) : Except String (List ℚ) :=
  if 1 < a.shape.length then
    Except.error "Only 1D objects expected for a"
  else if 1 < v.shape.length then
    Except.error "Only 1D objects expected for v"
  else
    let an := a.data.map (fun t => (t - listMean a.data) / (sqrt (listVar a.data) * a.data.length))
    let vn := v.data.map (fun t => (t - listMean v.data) / sqrt (listVar v.data))
    Except.ok (npCorrelateFull an vn)

/-- Model of `smooth_ts` (statmisc.py lines 127-153): after the 1-D check, allocate
`n - window + 1` slots (`np.empty` raises on a negative size) and fill slot
`i` with the mean of `ts[i : i+window]` while `i + window ≤ n`; that loop
runs exactly `n - window + 1` times (truncated at 0), once per slot.
The Python `isinstance(window, int)` check is reflected in `window : ℕ`. -/
def smooth_ts (ts : Arr) (window : ℕ) : Except String (List ℚ) :=
  if 1 < ts.shape.length then
    Except.error "Expected 1D vector for ts"
  else if (ts.data.length : ℤ) - window + 1 < 0 then
    Except.error "negative dimensions are not allowed"
  else
    Except.ok ((List.range (ts.data.length + 1 - window)).map
      (fun i => listMean (pySlice ts.data i (i + window))))

/-- Model of `run_corr` (statmisc.py lines 157-189): after 1-D and equal-length checks,
allocate `a1 - window_size + 1` slots (`np.empty` raises on a negative size)
and, while `i + window_size - 1 < a1`, fill slot `i` with the Pearson
coefficient (`np.corrcoef(..)[0][1]`, the `pearson` parameter) of the slices
`arr1[i : i+window_size-1]` and `arr2[i : i+window_size-1]`; that loop runs
exactly `a1 - window_size + 1` times (truncated at 0), once per slot. -/
def run_corr (pearson : List ℚ → List ℚ → ℚ) (arr1 arr2 : Arr)
    (window_size : ℕ) : Except String (List ℚ) :=
  if 1 < arr1.shape.length then
    Except.error "Expected only 1D arrays for arr1"
  else if 1 < arr2.shape.length then
    Except.error "Expected only 1D arrays for arr2"
  else if arr1.data.length ≠ arr2.data.length then
    Except.error "Array size mismatch. Pass similarly sized arrays"
  else if (arr1.data.length : ℤ) - window_size + 1 < 0 then
    Except.error "negative dimensions are not allowed"
  else
    Except.ok ((List.range (arr1.data.length + 1 - window_size)).map (fun i =>
      pearson (pySlice arr1.data i (i + window_size - 1))
              (pySlice arr2.data i (i + window_size - 1))))

/-- The sign of a rational, as `np.sign`: 1, -1 or 0. -/
def signQ (q : ℚ) : ℤ := if 0 < q then 1 else if q < 0 then -1 else 0

/-- Sum over all index pairs i < j of sign(xs[j]-xs[i]) * sign(ys[j]-ys[i]):
concordant minus discordant pairs. -/
def pairStat (xs ys : List ℚ) : ℤ :=
  match xs, ys with
  | x :: xs', y :: ys' =>
      ((xs'.zip ys').map (fun p => signQ (p.1 - x) * signQ (p.2 - y))).sum + pairStat xs' ys'
  | _, _ => 0

/-- Number of index pairs i < j with xs[i] = xs[j] (tied pairs). -/
def tieCount (xs : List ℚ) : ℕ :=
  match xs with
  | x :: xs' => (xs'.filter (fun t => decide (t = x))).length + tieCount xs'
  | [] => 0

/-- Modelled external: the tau statistic of `scipy.stats.kendalltau` (the
default tau-b variant), per its documented formula
tau = (P − Q) / sqrt((P + Q + T)·(P + Q + U)): with `tot` the number of
index pairs, `n1`/`n2` the tied pairs in each input, the value is
(concordant − discordant) / sqrt((tot − n1)·(tot − n2)); scipy returns NaN
(here `none`) when `tot = 0` or either input is completely tied. -/
def kendalltau (sqrt : ℚ → ℚ) (xs ys : List ℚ) : Option ℚ :=
  if xs.length * (xs.length - 1) / 2 = 0
      ∨ tieCount xs = xs.length * (xs.length - 1) / 2
      ∨ tieCount ys = xs.length * (xs.length - 1) / 2 then none
  else some ((pairStat xs ys : ℚ) /
    sqrt (((xs.length * (xs.length - 1) / 2 - tieCount xs : ℕ) : ℚ) *
          ((xs.length * (xs.length - 1) / 2 - tieCount ys : ℕ) : ℚ)))

/-- Model of `np.arange(n)` as a list of rationals. -/
def npArange (n : ℕ) : List ℚ := (List.range n).map (fun (i : ℕ) => (i : ℚ))

/-- Model of `mann_kendall` (statmisc.py lines 191-208): raise `ValueError` naming the
dimensionality when the input is not 1-D, then hand `np.arange(len(data))`
and the data to `scipy.stats.kendalltau` with `nan_policy="raise"`, which
raises on any NaN entry and otherwise returns (tau, p-value).  The p-value
is an external scipy computation, modelled by the `pval` parameter; the tau
statistic is `kendalltau` above. -/
def mann_kendall (sqrt : ℚ → ℚ) (pval : List ℚ → List ℚ → ℚ) (arr : ArrN) :
    Except String (Option ℚ × ℚ) :=
  if 1 < arr.shape.length then
    Except.error ("Only 1D arrays expected " ++ toString arr.shape.length ++ " array was passed")
  else if arr.data.any (fun o => o.isNone) then
    Except.error "The input contains nan values"
  else
    Except.ok (kendalltau sqrt (npArange arr.data.length) (arr.data.filterMap id),
      pval (npArange arr.data.length) (arr.data.filterMap id))

/-! ### Helper lemmas -/

theorem pySlice_length (xs : List ℚ) (i j : ℕ) :
    (pySlice xs i j).length = min (j - i) (xs.length - i) := by
  simp [pySlice]

theorem npCorrelateFull_length (a v : List ℚ) :
    (npCorrelateFull a v).length = a.length + v.length - 1 := by
  simp [npCorrelateFull]

/-! ### C4: smooth_ts -/

/-- C4: for a 1-D series and 1 ≤ window ≤ len(ts), `smooth_ts` returns the
sequence of means of `ts[i : i+window]` for i = 0 .. len(ts) − window, in
increasing order of i, of length len(ts) − window + 1; in particular
`smooth_ts [1,2,3,4,5] 2 = [1.5, 2.5, 3.5, 4.5]`. -/
theorem smooth_ts_spec (ts : Arr) (n window : ℕ)
    (hsh : ts.shape = [n]) (hd : ts.data.length = n)
    (h1 : 1 ≤ window) (h2 : window ≤ n) :
    (smooth_ts ts window = Except.ok ((List.range (n - window + 1)).map
        (fun i => listMean (pySlice ts.data i (i + window))))
      ∧ ∀ out, smooth_ts ts window = Except.ok out → out.length = n - window + 1)
    ∧ smooth_ts { shape := [5], data := [1, 2, 3, 4, 5] } 2 =
        Except.ok [3/2, 5/2, 7/2, 9/2] := by
  have hmain : smooth_ts ts window = Except.ok ((List.range (n - window + 1)).map
      (fun i => listMean (pySlice ts.data i (i + window)))) := by
    unfold smooth_ts
    rw [if_neg (by rw [hsh]; simp), if_neg (by rw [hd]; omega), hd,
      show n + 1 - window = n - window + 1 from by omega]
  refine ⟨⟨hmain, ?_⟩, by norm_num [smooth_ts, listMean, pySlice, List.range_succ]⟩
  intro out hout
  rw [hmain] at hout
  injection hout with hout
  rw [← hout]
  simp

theorem smooth_ts_spec_witness :
    smooth_ts { shape := [4], data := [1, 2, 3, 4] } 2 =
      Except.ok [3/2, 5/2, 7/2] :=
  ((smooth_ts_spec { shape := [4], data := [1, 2, 3, 4] } 4 2 rfl rfl
    (by decide) (by decide)).1.1).trans
    (by norm_num [listMean, pySlice, List.range_succ])

/-! ### C1: run_corr -/

/-- C1: for equal-length 1-D arrays and 1 ≤ window_size ≤ len(arr1),
`run_corr` returns the sequence, in increasing order of i, of Pearson
coefficients of the slices `arr1[i : i+window_size−1]` and
`arr2[i : i+window_size−1]`, of length len(arr1) − window_size + 1, and
each of those slices has window_size − 1 elements. -/
theorem run_corr_windows (pearson : List ℚ → List ℚ → ℚ) (arr1 arr2 : Arr) (n w : ℕ)
    (hs1 : arr1.shape = [n]) (hs2 : arr2.shape = [n])
    (hd1 : arr1.data.length = n) (hd2 : arr2.data.length = n)
    (hw1 : 1 ≤ w) (hw2 : w ≤ n) :
    run_corr pearson arr1 arr2 w = Except.ok ((List.range (n - w + 1)).map (fun i =>
        pearson (pySlice arr1.data i (i + w - 1)) (pySlice arr2.data i (i + w - 1))))
    ∧ ∀ i, i < n - w + 1 → (pySlice arr1.data i (i + w - 1)).length = w - 1
        ∧ (pySlice arr2.data i (i + w - 1)).length = w - 1 := by
  constructor
  · unfold run_corr
    rw [if_neg (by rw [hs1]; simp), if_neg (by rw [hs2]; simp),
      if_neg (by rw [hd1, hd2]; simp), if_neg (by rw [hd1]; omega), hd1,
      show n + 1 - w = n - w + 1 from by omega]
  · intro i hi
    constructor
    · rw [pySlice_length, hd1]; omega
    · rw [pySlice_length, hd2]; omega

theorem run_corr_windows_witness :
    run_corr (fun _ _ => (0 : ℚ)) { shape := [3], data := [1, 2, 3] }
      { shape := [3], data := [4, 5, 6] } 2 = Except.ok [0, 0] :=
  ((run_corr_windows (fun _ _ => (0 : ℚ)) { shape := [3], data := [1, 2, 3] }
    { shape := [3], data := [4, 5, 6] } 3 2 rfl rfl rfl rfl (by decide) (by decide)).1).trans
    (by simp [List.range_succ])

/-! ### C10 and C6: cnfint -/

/-- C10: every tail value other than 1 uses the two-tailed effective level
`1 − (1−clev)/2` and yields the same width as tail = 2, while tail = 1
selects the one-tailed level `clev` itself. -/
theorem cnfint_tail_not_one (sqrt : ℚ → ℚ) (ppf : ℚ → ℤ → ℚ) (xstd : ℚ) (nx : ℤ)
    (clev : ℚ) (tail : ℤ) (h : tail ≠ 1) :
    cnfint sqrt ppf xstd nx clev tail = cnfint sqrt ppf xstd nx clev 2
    ∧ cnfint sqrt ppf xstd nx clev 1 = ppf clev (nx - 1) * (xstd / sqrt (nx : ℚ)) := by
  unfold cnfint
  rw [if_neg h, if_neg (by decide), if_pos rfl]
  exact ⟨rfl, rfl⟩

theorem cnfint_tail_not_one_witness :
    cnfint (fun q => q) (fun c _ => c) 1 5 (9/10) 0 =
      cnfint (fun q => q) (fun c _ => c) 1 5 (9/10) 2 :=
  (cnfint_tail_not_one (fun q => q) (fun c _ => c) 1 5 (9/10) 0 (by decide)).1

/-- C6 counterexample: at xstd = 0 the one-tailed and two-tailed widths of
`cnfint` coincide (both are 0, the inverse-CDF value times a zero standard
error) even though clev = 9/10 < 1, so the two widths do not always differ.
The stub inverse CDF `fun c _ => c` is strictly increasing in the level, as
the real Student-t ppf is; the equality holds for every choice of ppf. -/
theorem cnfint_zero_std_equal :
    cnfint (fun q => q) (fun c _ => c) 0 5 (9/10) 2 =
      cnfint (fun q => q) (fun c _ => c) 0 5 (9/10) 1 := by
  norm_num [cnfint]

/-- C6 (amended): for a positive xstd, a count with positive square root,
and clev < 1, and with the Student-t inverse CDF strictly increasing in the
level, the two-tailed width strictly exceeds the one-tailed width (hence
they differ, and tail = 2 gives at least the width of tail = 1), because the
two-tailed effective level 1 − (1−clev)/2 is closer to 1 than clev. -/
theorem cnfint_two_tailed_wider (sqrt : ℚ → ℚ) (ppf : ℚ → ℤ → ℚ) (xstd : ℚ) (nx : ℤ)
    (clev : ℚ)
    (hmono : ∀ c1 c2 : ℚ, ∀ d : ℤ, c1 < c2 → ppf c1 d < ppf c2 d)
    (hstd : 0 < xstd) (hsq : 0 < sqrt (nx : ℚ)) (hclev : clev < 1) :
    cnfint sqrt ppf xstd nx clev 2 ≠ cnfint sqrt ppf xstd nx clev 1
    ∧ cnfint sqrt ppf xstd nx clev 1 ≤ cnfint sqrt ppf xstd nx clev 2 := by
  have hcl : clev < 1 - (1 - clev) / 2 := by linarith
  have hp := hmono clev (1 - (1 - clev) / 2) (nx - 1) hcl
  have hsd : 0 < xstd / sqrt (nx : ℚ) := div_pos hstd hsq
  unfold cnfint
  rw [if_neg (by decide), if_pos rfl]
  have hlt := mul_lt_mul_of_pos_right hp hsd
  exact ⟨ne_of_gt hlt, le_of_lt hlt⟩

theorem cnfint_two_tailed_wider_witness :
    cnfint (fun q => q) (fun c _ => c) 1 5 (9/10) 2 ≠
      cnfint (fun q => q) (fun c _ => c) 1 5 (9/10) 1
    ∧ cnfint (fun q => q) (fun c _ => c) 1 5 (9/10) 1 ≤
      cnfint (fun q => q) (fun c _ => c) 1 5 (9/10) 2 :=
  cnfint_two_tailed_wider (fun q => q) (fun c _ => c) 1 5 (9/10)
    (fun _ _ _ h => h) (by norm_num) (by norm_num) (by norm_num)

/-! ### siglev helper lemmas -/

theorem siglevResolveX_error_of_conflict (sqrt : ℚ → ℚ) (a : SiglevArgs)
    (h : xBadBoth a = true) :
    siglevResolveX sqrt a =
      Except.error "siglev: both x and xbar/xstd/nx cannot be passed together." := by
  unfold xBadBoth at h
  rcases hx : a.x with _ | xs
  · rw [hx] at h; simp at h
  · rw [hx] at h
    simp only [Option.isSome_some, Bool.true_and] at h
    unfold siglevResolveX
    simp [hx, h]

theorem siglevResolveX_error_of_missing (sqrt : ℚ → ℚ) (a : SiglevArgs)
    (h : xBadNone a = true) :
    siglevResolveX sqrt a =
      Except.error "siglev: at least x or xbar, xstd, nx should be passed." := by
  unfold xBadNone at h
  rcases hx : a.x with _ | xs
  · rw [hx] at h
    simp only [Option.isNone_none, Bool.true_and] at h
    unfold siglevResolveX
    rcases hxb : a.xbar with _ | xb <;> rcases hxs : a.xstd with _ | xsd <;>
      rcases hnx : a.nx with _ | m <;> simp_all
  · rw [hx] at h; simp at h

theorem siglevResolveX_ok_of_raw (sqrt : ℚ → ℚ) (a : SiglevArgs) (xs : List ℚ)
    (hx : a.x = some xs) (h : xBadBoth a = false) :
    siglevResolveX sqrt a =
      Except.ok (["xbar", "sx", "nx"], listMean xs, sqrt (listVar xs), (xs.length : ℤ)) := by
  unfold xBadBoth at h
  rw [hx] at h
  simp only [Option.isSome_some, Bool.true_and] at h
  unfold siglevResolveX
  simp [hx, h]

theorem siglevResolveX_ok_of_summary (sqrt : ℚ → ℚ) (a : SiglevArgs)
    (hx : a.x = none) (h : xBadNone a = false) :
    ∃ b s m, siglevResolveX sqrt a = Except.ok ([], b, s, m) := by
  unfold xBadNone at h
  rw [hx] at h
  simp only [Option.isNone_none, Bool.true_and] at h
  rcases hxb : a.xbar with _ | xb
  · rw [hxb] at h; simp at h
  · rcases hxs : a.xstd with _ | xsd
    · rw [hxs] at h; simp at h
    · rcases hnx : a.nx with _ | m
      · rw [hnx] at h; simp at h
      · exact ⟨xb, xsd, m, by unfold siglevResolveX; rw [hx, hxb, hxs, hnx]⟩

theorem siglevResolveY_error_of_conflict (sqrt : ℚ → ℚ) (a : SiglevArgs)
    (h : yBadBoth a = true) :
    siglevResolveY sqrt a =
      Except.error "siglev: both y and ybar/ystd/ny cannot be passed together." := by
  unfold yBadBoth at h
  rcases hy : a.y with _ | ys
  · rw [hy] at h; simp at h
  · rw [hy] at h
    simp only [Option.isSome_some, Bool.true_and] at h
    unfold siglevResolveY
    simp [hy, h]

theorem siglevResolveY_error_of_missing (sqrt : ℚ → ℚ) (a : SiglevArgs)
    (h : yBadNone a = true) :
    siglevResolveY sqrt a =
      Except.error "siglev: at least y or ybar,ystd,ny should be passed." := by
  unfold yBadNone at h
  rcases hy : a.y with _ | ys
  · rw [hy] at h
    simp only [Option.isNone_none, Bool.true_and] at h
    unfold siglevResolveY
    rcases hyb : a.ybar with _ | yb <;> rcases hys : a.ystd with _ | ysd <;>
      rcases hny : a.ny with _ | m <;> simp_all
  · rw [hy] at h; simp at h

theorem siglevResolveY_error_of_bad (sqrt : ℚ → ℚ) (a : SiglevArgs)
    (h : (yBadBoth a || yBadNone a) = true) :
    ∃ e, siglevResolveY sqrt a = Except.error e := by
  rcases Bool.or_eq_true_iff.mp h with h | h
  · exact ⟨_, siglevResolveY_error_of_conflict sqrt a h⟩
  · exact ⟨_, siglevResolveY_error_of_missing sqrt a h⟩

/-! ### C2: siglev formula -/

/-- C2: in every valid input mode (each side resolved either from a raw
sequence or from its supplied (mean, std-dev, count) triple), `siglev`
returns 100 × (1 − 2×(1 − CDF_t(t, dof))) with dof = nx + ny − 2,
t = |xbar − ybar| / sqrt(denom), and denom the pooled formula
((nx−1)·sx² + (ny−1)·sy²)/(nx+ny−2) · (nx+ny)/(nx·ny) when pooled and
sx²/nx + sy²/ny otherwise. -/
theorem siglev_matches_formula (sqrt : ℚ → ℚ) (tcdf : ℚ → ℤ → ℚ) (a : SiglevArgs)
    (tx ty : List String) (xbarv sx ybarv sy : ℚ) (nxv nyv : ℤ)
    (hx : siglevResolveX sqrt a = Except.ok (tx, xbarv, sx, nxv))
    (hy : siglevResolveY sqrt a = Except.ok (ty, ybarv, sy, nyv)) :
    siglev sqrt tcdf a =
      Except.ok (siglevSpecFormula sqrt tcdf xbarv ybarv sx sy nxv nyv a.pooled) := by
  unfold siglev siglevRun siglevSpecFormula
  rw [hx, hy]
  simp only
  congr 1
  ring

theorem siglev_matches_formula_witness :
    siglev (fun q => q) (fun t _ => t)
      { xbar := some 1, ybar := some 2, xstd := some 1, ystd := some 1,
        nx := some 3, ny := some 3 } =
    Except.ok (siglevSpecFormula (fun q => q) (fun t _ => t) 1 2 1 1 3 3 false) :=
  siglev_matches_formula (fun q => q) (fun t _ => t)
    { xbar := some 1, ybar := some 2, xstd := some 1, ystd := some 1,
      nx := some 3, ny := some 3 } [] [] 1 1 2 1 3 3 rfl rfl

/-! ### C3: siglev raw mode equals summary mode -/

/-- C3: for equal-length sequences and either pooled mode, calling `siglev`
with the raw sequences gives the same value as calling it with the
precomputed (mean, std-dev, count) triples, where the mean and standard
deviation are the very ones the raw path computes (`listMean` and
`sqrt ∘ listVar`, modelling `np.ma.mean` and `np.ma.std`). -/
theorem siglev_raw_eq_summary (sqrt : ℚ → ℚ) (tcdf : ℚ → ℤ → ℚ)
    (xs ys : List ℚ) (pooled : Bool) (hlen : xs.length = ys.length) :
    siglev sqrt tcdf { x := some xs, y := some ys, pooled := pooled } =
    siglev sqrt tcdf
      { xbar := some (listMean xs), ybar := some (listMean ys),
        xstd := some (sqrt (listVar xs)), ystd := some (sqrt (listVar ys)),
        nx := some (xs.length : ℤ), ny := some (ys.length : ℤ),
        pooled := pooled } := rfl

theorem siglev_raw_eq_summary_witness :
    siglev (fun q => q) (fun t _ => t) { x := some [1, 2], y := some [3, 4], pooled := true } =
    siglev (fun q => q) (fun t _ => t)
      { xbar := some (listMean [1, 2]), ybar := some (listMean [3, 4]),
        xstd := some ((fun q => q) (listVar [1, 2])), ystd := some ((fun q => q) (listVar [3, 4])),
        nx := some ((2 : ℕ) : ℤ), ny := some ((2 : ℕ) : ℤ), pooled := true } :=
  siglev_raw_eq_summary (fun q => q) (fun t _ => t) [1, 2] [3, 4] true rfl

/-! ### C8: siglev argument validation -/

/-- C8 counterexample: with `x` passed raw and a conflicting y-side
(`y` and `ybar` both given), `siglev` does raise, but only after computing
the x statistics `xbar`, `sx`, `nx` from the raw sequence — the error is
not raised "before any statistic is computed". -/
theorem siglev_stats_before_error :
    siglevRun (fun q => q) (fun t _ => t)
      { x := some [1, 2], y := some [1], ybar := some 1 } =
    (["xbar", "sx", "nx"],
      Except.error "siglev: both y and ybar/ystd/ny cannot be passed together.") := rfl

/-- C8 (amended): `siglev` errors whenever a side has both its raw sequence
and part of its triple, or has neither the raw sequence nor the complete
triple.  X-side violations are raised before any statistic is computed, and
so are y-side violations when `x` is given in summary form; but when `x` is
passed raw and only the y-side is invalid, the x statistics (mean, standard
deviation, count) are computed before the error is raised. -/
theorem siglev_validation_order (sqrt : ℚ → ℚ) (tcdf : ℚ → ℤ → ℚ) (a : SiglevArgs) :
    ((xBadBoth a || xBadNone a || yBadBoth a || yBadNone a) = true →
        ∃ e, (siglevRun sqrt tcdf a).2 = Except.error e)
    ∧ ((xBadBoth a || xBadNone a) = true → (siglevRun sqrt tcdf a).1 = [])
    ∧ (xBadBoth a = false → xBadNone a = false → (yBadBoth a || yBadNone a) = true →
        a.x = none → (siglevRun sqrt tcdf a).1 = [])
    ∧ (xBadBoth a = false → xBadNone a = false → (yBadBoth a || yBadNone a) = true →
        ∀ xs, a.x = some xs → (siglevRun sqrt tcdf a).1 = ["xbar", "sx", "nx"]) := by
  refine ⟨?_, ?_, ?_, ?_⟩
  · intro h
    cases hxb : xBadBoth a with
    | true =>
        unfold siglevRun
        rw [siglevResolveX_error_of_conflict sqrt a hxb]
        exact ⟨_, rfl⟩
    | false =>
        cases hxn : xBadNone a with
        | true =>
            unfold siglevRun
            rw [siglevResolveX_error_of_missing sqrt a hxn]
            exact ⟨_, rfl⟩
        | false =>
            rw [hxb, hxn] at h
            simp only [Bool.false_or] at h
            obtain ⟨e, hyerr⟩ := siglevResolveY_error_of_bad sqrt a h
            rcases hx : a.x with _ | xs
            · obtain ⟨b, s, m, hok⟩ := siglevResolveX_ok_of_summary sqrt a hx hxn
              unfold siglevRun
              rw [hok, hyerr]
              exact ⟨e, rfl⟩
            · unfold siglevRun
              rw [siglevResolveX_ok_of_raw sqrt a xs hx hxb, hyerr]
              exact ⟨e, rfl⟩
  · intro h
    cases hxb : xBadBoth a with
    | true =>
        unfold siglevRun
        rw [siglevResolveX_error_of_conflict sqrt a hxb]
    | false =>
        rw [hxb] at h
        simp only [Bool.false_or] at h
        unfold siglevRun
        rw [siglevResolveX_error_of_missing sqrt a h]
  · intro hxb hxn hy hx
    obtain ⟨b, s, m, hok⟩ := siglevResolveX_ok_of_summary sqrt a hx hxn
    obtain ⟨e, hyerr⟩ := siglevResolveY_error_of_bad sqrt a hy
    unfold siglevRun
    rw [hok, hyerr]
  · intro hxb hxn hy xs hx
    obtain ⟨e, hyerr⟩ := siglevResolveY_error_of_bad sqrt a hy
    unfold siglevRun
    rw [siglevResolveX_ok_of_raw sqrt a xs hx hxb, hyerr]

theorem siglev_validation_order_witness :
    (siglevRun (fun q => q) (fun t _ => t) { x := some [1], xbar := some 2 }).1 = [] :=
  (siglev_validation_order (fun q => q) (fun t _ => t)
    { x := some [1], xbar := some 2 }).2.1 (by decide)

/-! ### C5: autocorr -/

/-- C5: for 1-D inputs (nonempty, as `np.correlate` requires), `autocorr`
returns the full-mode discrete correlation of a' and v', where a' is a
centred and scaled by its standard deviation times its length and v' is v
centred and scaled by its standard deviation, with result length
len(a) + len(v) − 1; and it raises ValueError whenever either input has
more than one dimension. -/
theorem autocorr_spec (sqrt : ℚ → ℚ) (a v : Arr) (m k : ℕ)
    (hsa : a.shape = [m]) (hsv : v.shape = [k])
    (ha : 1 ≤ a.data.length) (hv : 1 ≤ v.data.length) :
    (autocorr sqrt a v = Except.ok (npCorrelateFull
        (a.data.map (fun t => (t - listMean a.data) / (sqrt (listVar a.data) * a.data.length)))
        (v.data.map (fun t => (t - listMean v.data) / sqrt (listVar v.data))))
      ∧ ∀ out, autocorr sqrt a v = Except.ok out →
          out.length = a.data.length + v.data.length - 1)
    ∧ ∀ b c : Arr, 1 < b.shape.length ∨ 1 < c.shape.length →
        ∃ e, autocorr sqrt b c = Except.error e := by
  have hmain : autocorr sqrt a v = Except.ok (npCorrelateFull
      (a.data.map (fun t => (t - listMean a.data) / (sqrt (listVar a.data) * a.data.length)))
      (v.data.map (fun t => (t - listMean v.data) / sqrt (listVar v.data)))) := by
    unfold autocorr
    rw [if_neg (by rw [hsa]; simp), if_neg (by rw [hsv]; simp)]
  refine ⟨⟨hmain, ?_⟩, ?_⟩
  · intro out hout
    rw [hmain] at hout
    injection hout with hout
    rw [← hout, npCorrelateFull_length]
    simp
  · intro b c hbc
    unfold autocorr
    rcases hbc with hb | hc
    · rw [if_pos hb]
      exact ⟨_, rfl⟩
    · by_cases hb : 1 < b.shape.length
      · rw [if_pos hb]
        exact ⟨_, rfl⟩
      · rw [if_neg hb, if_pos hc]
        exact ⟨_, rfl⟩

theorem autocorr_spec_witness :
    autocorr (fun q => q) { shape := [2], data := [1, 2] } { shape := [2], data := [3, 4] } =
      Except.ok (npCorrelateFull
        (([1, 2] : List ℚ).map (fun t =>
          (t - listMean [1, 2]) / ((fun q => q) (listVar [1, 2]) * (([1, 2] : List ℚ).length : ℚ))))
        (([3, 4] : List ℚ).map (fun t =>
          (t - listMean [3, 4]) / (fun q => q) (listVar [3, 4])))) :=
  (autocorr_spec (fun q => q) { shape := [2], data := [1, 2] }
    { shape := [2], data := [3, 4] } 2 2 rfl rfl (by decide) (by decide)).1.1

/-! ### C9: mann_kendall error cases -/

/-- C9: `mann_kendall` raises a ValueError whose message reports the passed
dimensionality whenever the input has more than one dimension, and raises
on a missing (NaN) entry in a 1-D input because the rank-correlation
routine is invoked with the raise-on-missing policy. -/
theorem mann_kendall_error_cases (sqrt : ℚ → ℚ) (pval : List ℚ → List ℚ → ℚ) (arr : ArrN) :
    (1 < arr.shape.length →
      mann_kendall sqrt pval arr =
        Except.error ("Only 1D arrays expected " ++ toString arr.shape.length
          ++ " array was passed"))
    ∧ (arr.shape.length ≤ 1 → arr.data.any (fun o => o.isNone) = true →
      mann_kendall sqrt pval arr = Except.error "The input contains nan values") := by
  constructor
  · intro h
    unfold mann_kendall
    rw [if_pos h]
  · intro h1 h2
    unfold mann_kendall
    rw [if_neg (by omega), if_pos h2]

theorem mann_kendall_error_cases_witness :
    mann_kendall (fun q => q) (fun _ _ => 0) { shape := [2, 2], data := [some 1] } =
      Except.error ("Only 1D arrays expected "
        ++ toString (({ shape := [2, 2], data := [some 1] } : ArrN)).shape.length
        ++ " array was passed") :=
  (mann_kendall_error_cases (fun q => q) (fun _ _ => 0)
    { shape := [2, 2], data := [some 1] }).1 (by decide)

/-! ### C7: mann_kendall on strictly monotone data -/

theorem signQ_of_pos {q : ℚ} (h : 0 < q) : signQ q = 1 := by
  unfold signQ
  rw [if_pos h]

theorem signQ_of_neg {q : ℚ} (h : q < 0) : signQ q = -1 := by
  unfold signQ
  rw [if_neg (by linarith), if_pos h]

theorem sum_sign_all_inc (x y : ℚ) (l : List (ℚ × ℚ)) (h : ∀ p ∈ l, x < p.1 ∧ y < p.2) :
    ((l.map (fun p => signQ (p.1 - x) * signQ (p.2 - y))).sum) = (l.length : ℤ) := by
  induction l with
  | nil => rfl
  | cons p l ih =>
      have hp := h p (List.mem_cons_self p l)
      simp only [List.map_cons, List.sum_cons, List.length_cons]
      rw [signQ_of_pos (sub_pos.mpr hp.1), signQ_of_pos (sub_pos.mpr hp.2),
        ih (fun q hq => h q (List.mem_cons_of_mem p hq))]
      push_cast
      ring

theorem sum_sign_inc_dec (x y : ℚ) (l : List (ℚ × ℚ)) (h : ∀ p ∈ l, x < p.1 ∧ p.2 < y) :
    ((l.map (fun p => signQ (p.1 - x) * signQ (p.2 - y))).sum) = -(l.length : ℤ) := by
  induction l with
  | nil => rfl
  | cons p l ih =>
      have hp := h p (List.mem_cons_self p l)
      simp only [List.map_cons, List.sum_cons, List.length_cons]
      rw [signQ_of_pos (sub_pos.mpr hp.1), signQ_of_neg (sub_neg.mpr hp.2),
        ih (fun q hq => h q (List.mem_cons_of_mem p hq))]
      push_cast
      ring

theorem pairStat_inc_inc : ∀ (xs ys : List ℚ), xs.length = ys.length →
    List.Pairwise (· < ·) xs → List.Pairwise (· < ·) ys →
    pairStat xs ys = (xs.length.choose 2 : ℤ)
  | [], _, _, _, _ => rfl
  | x :: xs, [], hlen, _, _ => by simp at hlen
  | x :: xs, y :: ys, hlen, hx, hy => by
      rw [List.pairwise_cons] at hx hy
      have hlen' : xs.length = ys.length := by simpa using hlen
      have hzip : ∀ p ∈ xs.zip ys, x < p.1 ∧ y < p.2 := fun p hp =>
        ⟨hx.1 p.1 (List.of_mem_zip hp).1, hy.1 p.2 (List.of_mem_zip hp).2⟩
      rw [pairStat, sum_sign_all_inc x y _ hzip,
        pairStat_inc_inc xs ys hlen' hx.2 hy.2,
        List.length_zip, hlen', min_self]
      have hch2 : (ys.length + 1).choose 2 = ys.length + ys.length.choose 2 := by
        rw [Nat.choose_succ_succ, Nat.choose_one_right]
      simp only [List.length_cons, hlen']
      omega

theorem pairStat_inc_dec : ∀ (xs ys : List ℚ), xs.length = ys.length →
    List.Pairwise (· < ·) xs → List.Pairwise (· > ·) ys →
    pairStat xs ys = -(xs.length.choose 2 : ℤ)
  | [], _, _, _, _ => rfl
  | x :: xs, [], hlen, _, _ => by simp at hlen
  | x :: xs, y :: ys, hlen, hx, hy => by
      rw [List.pairwise_cons] at hx hy
      have hlen' : xs.length = ys.length := by simpa using hlen
      have hzip : ∀ p ∈ xs.zip ys, x < p.1 ∧ p.2 < y := fun p hp =>
        ⟨hx.1 p.1 (List.of_mem_zip hp).1, hy.1 p.2 (List.of_mem_zip hp).2⟩
      rw [pairStat, sum_sign_inc_dec x y _ hzip,
        pairStat_inc_dec xs ys hlen' hx.2 hy.2,
        List.length_zip, hlen', min_self]
      have hch2 : (ys.length + 1).choose 2 = ys.length + ys.length.choose 2 := by
        rw [Nat.choose_succ_succ, Nat.choose_one_right]
      simp only [List.length_cons, hlen']
      omega

theorem tieCount_eq_zero : ∀ (xs : List ℚ), List.Pairwise (· ≠ ·) xs → tieCount xs = 0
  | [], _ => rfl
  | x :: xs, h => by
      rw [List.pairwise_cons] at h
      rw [tieCount, tieCount_eq_zero xs h.2]
      have hf : xs.filter (fun t => decide (t = x)) = [] := by
        rw [List.filter_eq_nil_iff]
        intro t ht
        simp only [decide_eq_true_eq]
        exact fun he => h.1 t ht he.symm
      rw [hf]
      rfl

theorem kendalltau_strict_inc (sqrt : ℚ → ℚ) (xs ys : List ℚ)
    (hlen : xs.length = ys.length) (hn : 2 ≤ xs.length)
    (hxs : List.Pairwise (· < ·) xs) (hys : List.Pairwise (· < ·) ys)
    (hsq : sqrt (((xs.length * (xs.length - 1) / 2 : ℕ) : ℚ) *
        ((xs.length * (xs.length - 1) / 2 : ℕ) : ℚ)) =
        ((xs.length * (xs.length - 1) / 2 : ℕ) : ℚ)) :
    kendalltau sqrt xs ys = some 1 := by
  have h1 : tieCount xs = 0 := tieCount_eq_zero xs (hxs.imp fun h => ne_of_lt h)
  have h2 : tieCount ys = 0 := tieCount_eq_zero ys (hys.imp fun h => ne_of_lt h)
  have hch : xs.length * (xs.length - 1) / 2 = xs.length.choose 2 :=
    (Nat.choose_two_right xs.length).symm
  have hpos : 0 < xs.length.choose 2 := Nat.choose_pos hn
  have hne : ((xs.length.choose 2 : ℕ) : ℚ) ≠ 0 := Nat.cast_ne_zero.mpr (by omega)
  unfold kendalltau
  rw [hch] at hsq ⊢
  rw [h1, h2, if_neg (by omega), pairStat_inc_inc xs ys hlen hxs hys]
  simp only [Nat.sub_zero]
  rw [hsq]
  simp [div_self hne]

theorem kendalltau_strict_dec (sqrt : ℚ → ℚ) (xs ys : List ℚ)
    (hlen : xs.length = ys.length) (hn : 2 ≤ xs.length)
    (hxs : List.Pairwise (· < ·) xs) (hys : List.Pairwise (· > ·) ys)
    (hsq : sqrt (((xs.length * (xs.length - 1) / 2 : ℕ) : ℚ) *
        ((xs.length * (xs.length - 1) / 2 : ℕ) : ℚ)) =
        ((xs.length * (xs.length - 1) / 2 : ℕ) : ℚ)) :
    kendalltau sqrt xs ys = some (-1) := by
  have h1 : tieCount xs = 0 := tieCount_eq_zero xs (hxs.imp fun h => ne_of_lt h)
  have h2 : tieCount ys = 0 := tieCount_eq_zero ys (hys.imp fun h => ne_of_gt h)
  have hch : xs.length * (xs.length - 1) / 2 = xs.length.choose 2 :=
    (Nat.choose_two_right xs.length).symm
  have hpos : 0 < xs.length.choose 2 := Nat.choose_pos hn
  have hne : ((xs.length.choose 2 : ℕ) : ℚ) ≠ 0 := Nat.cast_ne_zero.mpr (by omega)
  unfold kendalltau
  rw [hch] at hsq ⊢
  rw [h1, h2, if_neg (by omega), pairStat_inc_dec xs ys hlen hxs hys]
  simp only [Nat.sub_zero]
  rw [hsq]
  simp [neg_div, div_self hne]

theorem npArange_length (n : ℕ) : (npArange n).length = n := by
  unfold npArange
  rw [List.length_map, List.length_range]

theorem npArange_pairwise (n : ℕ) : List.Pairwise (· < ·) (npArange n) := by
  unfold npArange
  exact List.Pairwise.map (fun (i : ℕ) => (i : ℚ)) (fun a b h => Nat.cast_lt.mpr h)
    (List.pairwise_lt_range n)

/-- C7 counterexample: `[5]` is (vacuously) a strictly increasing 1-D
sequence, yet `mann_kendall` returns tau = NaN (modelled as `none`; scipy
yields nan whenever the number of index pairs is zero), not 1.0. -/
theorem mann_kendall_singleton_nan :
    mann_kendall (fun q => q) (fun _ _ => 0) { shape := [1], data := [some 5] } =
      Except.ok (none, 0) := rfl

/-- C7 (amended): on a 1-D sequence of length at least 2 with no missing
values, `mann_kendall` returns tau = 1.0 when the data are strictly
increasing and tau = −1.0 when strictly decreasing (tau being the Kendall
rank correlation of the data against the index sequence 0, 1, 2, ...),
given that the square root used by the tau-b denominator is exact on the
square of the pair count, as the real square root is. -/
theorem mann_kendall_monotone_tau (sqrt : ℚ → ℚ) (pval : List ℚ → List ℚ → ℚ)
    (arr : ArrN) (ds : List ℚ) (n : ℕ)
    (hsh : arr.shape = [n]) (hdata : arr.data = ds.map some) (hn : 2 ≤ ds.length)
    (hsq : sqrt (((ds.length * (ds.length - 1) / 2 : ℕ) : ℚ) *
        ((ds.length * (ds.length - 1) / 2 : ℕ) : ℚ)) =
        ((ds.length * (ds.length - 1) / 2 : ℕ) : ℚ)) :
    (List.Pairwise (· < ·) ds →
      mann_kendall sqrt pval arr = Except.ok (some 1, pval (npArange ds.length) ds))
    ∧ (List.Pairwise (· > ·) ds →
      mann_kendall sqrt pval arr = Except.ok (some (-1), pval (npArange ds.length) ds)) := by
  have hnone : arr.data.any (fun o => o.isNone) = false := by
    rw [hdata]; simp
  have hfm : arr.data.filterMap id = ds := by
    rw [hdata]; simp
  have hlen : arr.data.length = ds.length := by rw [hdata]; simp
  have hxlen : (npArange ds.length).length = ds.length := npArange_length ds.length
  have hshlen : ¬ 1 < arr.shape.length := by rw [hsh]; simp
  constructor
  · intro hinc
    unfold mann_kendall
    rw [if_neg hshlen, hnone, if_neg (by simp), hfm, hlen,
      kendalltau_strict_inc sqrt (npArange ds.length) ds hxlen
        (by rw [hxlen]; exact hn) (npArange_pairwise ds.length) hinc
        (by rw [hxlen]; exact hsq)]
  · intro hdec
    unfold mann_kendall
    rw [if_neg hshlen, hnone, if_neg (by simp), hfm, hlen,
      kendalltau_strict_dec sqrt (npArange ds.length) ds hxlen
        (by rw [hxlen]; exact hn) (npArange_pairwise ds.length) hdec
        (by rw [hxlen]; exact hsq)]

theorem mann_kendall_monotone_tau_witness :
    (List.Pairwise (· < ·) ([1, 2] : List ℚ) →
      mann_kendall (fun _ => 1) (fun _ _ => 0) { shape := [2], data := [some 1, some 2] } =
        Except.ok (some 1, 0))
    ∧ (List.Pairwise (· > ·) ([1, 2] : List ℚ) →
      mann_kendall (fun _ => 1) (fun _ _ => 0) { shape := [2], data := [some 1, some 2] } =
        Except.ok (some (-1), 0)) :=
  mann_kendall_monotone_tau (fun _ => 1) (fun _ _ => 0)
    { shape := [2], data := [some 1, some 2] } [1, 2] 2 rfl rfl (by decide) (by norm_num)
